import Mathlib

/-!
Verification of the Smart Wound-Care Concierge core
(`decision.py` and `perception.py`), as a shallow embedding in Lean 4.

Python floats are modelled as rationals; Python dictionaries of metric
values are modelled as association lists whose values are either numeric
or a value that `float()` rejects; code that can raise returns `Except`.
-/

namespace SWC

/-- A Python value stored in a metrics dictionary: either a number
(anything `float()` accepts, modelled by its rational value) or a value
`float()` rejects (e.g. `None`, a list, a non-numeric string). -/
inductive PyVal where
  | num (q : ℚ)
  | nonNumeric
deriving DecidableEq, Repr

/-- A Python dict of metrics, as an association list (first match wins). -/
abbrev MetricDict := List (String × PyVal)

/-- `d.get(k)` for a Python dict. -/
def dget : MetricDict → String → Option PyVal
  | [], _ => none
  | (k, v) :: rest, key => if k = key then some v else dget rest key

/-- `float(d.get(k, dflt))`: a missing key yields the default, a numeric
value its number, and a non-numeric value raises (`Except.error`). -/
def getFloat (d : MetricDict) (k : String) (dflt : ℚ) : Except Unit ℚ :=
  match dget d k with
  | none => .ok dflt
  | some (.num q) => .ok q
  | some .nonNumeric => .error ()

/-- The four status strings produced by `decide_status`. -/
inductive Status where
  | Stable
  | Monitor
  | Concerning
  | Urgent
deriving DecidableEq, Repr

/-- The two quality strings produced by `decide_status`. -/
inductive Quality where
  | ok
  | poor
deriving DecidableEq, Repr

/-- One entry of the `reason` list built by `decide_status`, keeping the
rule name and the numeric value interpolated into the Python f-string. -/
inductive Tag where
  | image_quality (blur_var brightness : ℚ)
  | high_exudate (e : ℚ)
  | moderate_exudate (e : ℚ)
  | area_increase_pct (d : ℚ)
  | area_change_pct (d : ℚ)
  | area_decrease_pct (d : ℚ)
  | redness (r : ℚ)
deriving DecidableEq, Repr

/-- Whether a tag is the redness tag. -/
def Tag.isRedness : Tag → Bool
  | .redness _ => true
  | _ => false

/-- The `explanation` field: `"; ".join(reason)` when `reason` is
non-empty, else the literal string `"heuristic_default"`. -/
inductive Explanation where
  | joined (tags : List Tag)
  | heuristic_default
deriving DecidableEq, Repr

/-- `explanation = "; ".join(reason) if reason else "heuristic_default"`. -/
def mkExplanation (reason : List Tag) : Explanation :=
  if reason = [] then .heuristic_default else .joined reason

/-- The dict returned by `decide_status`. -/
structure Decision where
  status : Status
  delta_pct : ℚ
  quality : Quality
  explanation : Explanation
deriving DecidableEq, Repr

-- Decision thresholds from decision.py.
def REDNESS_URGENT : ℚ := 150
def REDNESS_CONCERNING : ℚ := 120
def DELTA_URGENT : ℚ := 15
def DELTA_CONCERNING : ℚ := 5
def EXUDATE_HIGH : ℚ := 8/100
def EXUDATE_MED : ℚ := 3/100

/-- `compute_delta_pct(curr_metrics, prev_metrics)`: `0.0` when
`prev_metrics` is falsy (`None` or the empty dict), otherwise
`(float(curr.get("area",0)) - prev_area) / prev_area * 100` with
`prev_area = max(1.0, float(prev.get("area",0)))`. -/
def compute_delta_pct (curr : MetricDict) (prev : Option MetricDict) : Except Unit ℚ :=
  match prev with
  | none => .ok 0
  | some p =>
    if p = [] then .ok 0
    else
      match getFloat p "area" 0 with
      | .error e => .error e
      | .ok pa =>
        match getFloat curr "area" 0 with
        | .error e => .error e
        | .ok ca => .ok ((ca - max 1 pa) / max 1 pa * 100)

/-- The image-quality check of `decide_status`. -/
def qualityOf (blur_var brightness : ℚ) : Quality :=
  if blur_var < 60 ∨ brightness < 30 then .poor else .ok

/-- The tag appended by the image-quality check of `decide_status`. -/
def qualityTags (blur_var brightness : ℚ) : List Tag :=
  if blur_var < 60 ∨ brightness < 30 then [.image_quality blur_var brightness] else []

/-- The exudate block of `decide_status`: returns the new status and the
tags it appends to `reason`. -/
def exudateStep (exud : ℚ) (st : Status) : Status × List Tag :=
  if exud ≥ EXUDATE_HIGH then (.Urgent, [.high_exudate exud])
  else if exud ≥ EXUDATE_MED ∧ st ≠ .Urgent then (.Concerning, [.moderate_exudate exud])
  else (st, [])

/-- The delta block of `decide_status` (the `-5 ≤ delta ≤ 5` branch keeps
the running status unchanged, as the source's no-op assignment does). -/
def deltaStep (delta : ℚ) (st : Status) : Status × List Tag :=
  if delta > DELTA_URGENT then (.Urgent, [.area_increase_pct delta])
  else if DELTA_CONCERNING < delta ∧ delta ≤ DELTA_URGENT ∧ st ≠ .Urgent then
    (.Concerning, [.area_increase_pct delta])
  else if -5 ≤ delta ∧ delta ≤ DELTA_CONCERNING then (st, [.area_change_pct delta])
  else if delta < -5 then (.Stable, [.area_decrease_pct delta])
  else (st, [])

/-- The redness block of `decide_status`. -/
def rednessStep (redness : ℚ) (st : Status) : Status × List Tag :=
  if redness > REDNESS_URGENT then (.Urgent, [.redness redness])
  else if redness > REDNESS_CONCERNING ∧ st ≠ .Urgent then (.Concerning, [.redness redness])
  else (st, [])

/-- The `reason` list of `decide_status`, in the order tags are appended:
quality check, exudate block, delta block, redness block. -/
def coreReason (delta redness exud blur_var brightness : ℚ) : List Tag :=
  qualityTags blur_var brightness
    ++ (exudateStep exud .Monitor).2
    ++ (deltaStep delta (exudateStep exud .Monitor).1).2
    ++ (rednessStep redness (deltaStep delta (exudateStep exud .Monitor).1).1).2

/-- The pure body of `decide_status` after the five `float(...)` field
extractions: the status starts at `Monitor` and the three rule blocks run
in order, each rewriting the running status. -/
def decideStatusCore (delta redness exud blur_var brightness : ℚ) : Decision :=
  { status := (rednessStep redness (deltaStep delta (exudateStep exud .Monitor).1).1).1
    delta_pct := delta
    quality := qualityOf blur_var brightness
    explanation := mkExplanation (coreReason delta redness exud blur_var brightness) }

/-- `decide_status(curr_metrics, prev_metrics)`: computes the delta, then
extracts `redness`, `exudate_ratio`, `blur_var`, `brightness` via
`float(curr.get(k, 0.0))` in source order (each can raise), then runs the
pure rule chain. -/
def decide_status (curr : MetricDict) (prev : Option MetricDict) : Except Unit Decision :=
  match compute_delta_pct curr prev with
  | .error e => .error e
  | .ok delta =>
    match getFloat curr "redness" 0 with
    | .error e => .error e
    | .ok redness =>
      match getFloat curr "exudate_ratio" 0 with
      | .error e => .error e
      | .ok exud =>
        match getFloat curr "blur_var" 0 with
        | .error e => .error e
        | .ok blur_var =>
          match getFloat curr "brightness" 0 with
          | .error e => .error e
          | .ok brightness => .ok (decideStatusCore delta redness exud blur_var brightness)

/-- The current metrics of the spec's delta-override regression test:
`exudate_ratio = 0.09`, `redness = 50`, area shrinking from 100 to 90. -/
def c1curr : MetricDict :=
  [("area", .num 90), ("redness", .num 50), ("exudate_ratio", .num (9/100))]

/-- The previous metrics of the delta-override regression test. -/
def c1prev : MetricDict := [("area", .num 100)]

/-- C1: whenever `delta_pct < -5`, the delta block of `decide_status`
rewrites the running status to `Stable` unconditionally, whatever an
earlier rule set it to; in particular for `exudate_ratio = 0.09`,
`redness = 50` and areas 100 → 90 (so `delta_pct = -10`) the returned
status is `Stable` even though the exudate rule first set `Urgent`. -/
theorem c1_delta_negative_unconditionally_stable :
    (∀ (st : Status) (d : ℚ), d < -5 → (deltaStep d st).1 = .Stable) ∧
    decide_status c1curr (some c1prev) =
      .ok ⟨.Stable, -10, .poor,
        .joined [.image_quality 0 0, .high_exudate (9/100), .area_decrease_pct (-10)]⟩ := by
  refine ⟨?_, ?_⟩
  · intro st d hd
    have h1 : ¬ d > DELTA_URGENT := by unfold DELTA_URGENT; linarith
    have h2 : ¬ (DELTA_CONCERNING < d ∧ d ≤ DELTA_URGENT ∧ st ≠ .Urgent) := by
      unfold DELTA_CONCERNING; rintro ⟨h, -, -⟩; linarith
    have h3 : ¬ ((-5 : ℚ) ≤ d ∧ d ≤ DELTA_CONCERNING) := by rintro ⟨h, -⟩; linarith
    simp only [deltaStep, if_neg h1, if_neg h2, if_neg h3, if_pos hd]
  · simp [decide_status, compute_delta_pct, c1curr, c1prev, getFloat, dget,
      decideStatusCore, coreReason, qualityTags, qualityOf, exudateStep, deltaStep,
      rednessStep, mkExplanation, EXUDATE_HIGH, EXUDATE_MED, DELTA_URGENT,
      DELTA_CONCERNING, REDNESS_URGENT, REDNESS_CONCERNING, max_def]
    norm_num

/-- Witness for C1: the delta block downgrades even an `Urgent` status. -/
theorem c1_witness : (deltaStep (-10) Status.Urgent).1 = Status.Stable :=
  c1_delta_negative_unconditionally_stable.1 Status.Urgent (-10) (by norm_num)

/-- C2 counterexample: a present non-numeric `redness` field is not
coerced to `0.0` — `float()` raises, so `decide_status` raises. -/
theorem c2_counterexample :
    decide_status [("redness", PyVal.nonNumeric)] none = .error () := rfl

/-- A dict field is either missing or holds a numeric value. -/
def numOrMissing (d : MetricDict) (k : String) : Prop :=
  ∀ v, dget d k = some v → ∃ q, v = PyVal.num q

lemma numOrMissing_getFloat {d : MetricDict} {k : String} (h : numOrMissing d k) (dflt : ℚ) :
    ∃ q, getFloat d k dflt = .ok q := by
  unfold getFloat
  cases hv : dget d k with
  | none => exact ⟨dflt, rfl⟩
  | some v =>
    obtain ⟨q, rfl⟩ := h v hv
    exact ⟨q, rfl⟩

lemma compute_delta_pct_ok {curr : MetricDict} {prev : Option MetricDict}
    (harea : numOrMissing curr "area")
    (hprev : ∀ p, prev = some p → numOrMissing p "area") :
    ∃ δ, compute_delta_pct curr prev = .ok δ := by
  cases prev with
  | none => exact ⟨0, rfl⟩
  | some p =>
    by_cases hp : p = []
    · exact ⟨0, by simp [compute_delta_pct, hp]⟩
    · obtain ⟨pa, hpa⟩ := numOrMissing_getFloat (hprev p rfl) 0
      obtain ⟨ca, hca⟩ := numOrMissing_getFloat harea 0
      exact ⟨(ca - max 1 pa) / max 1 pa * 100, by simp [compute_delta_pct, hp, hpa, hca]⟩

/-- C2 (amended): `classify` returns exactly one Decision and never
raises provided every *present* relevant field is numeric; a *missing*
field is read as `0.0`.  (A present non-numeric field raises, see the
counterexample.) -/
theorem c2_total_on_numeric_fields :
    (∀ (curr : MetricDict) (prev : Option MetricDict),
      numOrMissing curr "area" → numOrMissing curr "redness" →
      numOrMissing curr "exudate_ratio" → numOrMissing curr "blur_var" →
      numOrMissing curr "brightness" →
      (∀ p, prev = some p → numOrMissing p "area") →
      ∃ dec, decide_status curr prev = .ok dec) ∧
    (∀ (d : MetricDict) (k : String), dget d k = none → getFloat d k 0 = .ok 0) := by
  constructor
  · intro curr prev harea hredness hexud hblur hbright hprev
    obtain ⟨δ, hδ⟩ := compute_delta_pct_ok harea hprev
    obtain ⟨r, hr⟩ := numOrMissing_getFloat hredness 0
    obtain ⟨e, he⟩ := numOrMissing_getFloat hexud 0
    obtain ⟨bv, hbv⟩ := numOrMissing_getFloat hblur 0
    obtain ⟨br, hbr⟩ := numOrMissing_getFloat hbright 0
    exact ⟨decideStatusCore δ r e bv br, by simp [decide_status, hδ, hr, he, hbv, hbr]⟩
  · intro d k h
    simp [getFloat, h]

lemma numOrMissing_of_num_entry (k : String) (q : ℚ) :
    numOrMissing [(k, PyVal.num q)] k := by
  intro v hv
  simp [dget] at hv
  exact ⟨q, hv.symm⟩

lemma numOrMissing_of_absent {d : MetricDict} {k : String} (h : dget d k = none) :
    numOrMissing d k := by
  intro v hv
  rw [h] at hv
  cases hv

/-- Witness for C2: a dict holding only a numeric `area`, classified
against a numeric previous `area`, yields a Decision. -/
theorem c2_witness :
    ∃ dec, decide_status [("area", PyVal.num 7)] (some [("area", PyVal.num 3)]) = .ok dec :=
  c2_total_on_numeric_fields.1 [("area", PyVal.num 7)] (some [("area", PyVal.num 3)])
    (numOrMissing_of_num_entry "area" 7)
    (numOrMissing_of_absent rfl) (numOrMissing_of_absent rfl)
    (numOrMissing_of_absent rfl) (numOrMissing_of_absent rfl)
    (fun p hp => by cases hp; exact numOrMissing_of_num_entry "area" 3)

/-- C5 counterexample: for a *present but empty* previous dict the code
returns `delta_pct = 0` (Python's `if not prev_metrics` is true for `{}`),
while the claimed formula `(area - max(1, prev_area)) / max(1, prev_area)
* 100` with the missing `prev.area` read as 0 yields 400. -/
theorem c5_counterexample :
    decide_status [("area", PyVal.num 5)] (some []) =
      .ok ⟨.Monitor, 0, .poor, .joined [.image_quality 0 0, .area_change_pct 0]⟩ ∧
    ((5 : ℚ) - max 1 0) / max 1 0 * 100 = 400 ∧ (0 : ℚ) ≠ 400 := by
  refine ⟨?_, by norm_num, by norm_num⟩
  simp [decide_status, compute_delta_pct, getFloat, dget, decideStatusCore, coreReason,
    qualityTags, qualityOf, exudateStep, deltaStep, rednessStep, mkExplanation,
    EXUDATE_HIGH, EXUDATE_MED, DELTA_URGENT, DELTA_CONCERNING, REDNESS_URGENT,
    REDNESS_CONCERNING, max_def]
  norm_num

/-- C5 (amended): `delta_pct = 0` when `previous` is absent *or falsy
(the empty dict)*; for a non-empty previous whose `area` reads as `pa`
and a current whose `area` reads as `ca`, `delta_pct = (ca - max(1, pa))
/ max(1, pa) * 100`; in particular areas 100 → 120 give exactly `20.0`
and the `delta_pct > 15` rule makes the status `Urgent`. -/
theorem c5_delta_formula :
    (∀ curr, compute_delta_pct curr none = .ok 0) ∧
    (∀ curr, compute_delta_pct curr (some []) = .ok 0) ∧
    (∀ (curr prev : MetricDict) (ca pa : ℚ), prev ≠ [] →
      getFloat curr "area" 0 = .ok ca → getFloat prev "area" 0 = .ok pa →
      compute_delta_pct curr (some prev) = .ok ((ca - max 1 pa) / max 1 pa * 100)) ∧
    decide_status [("area", PyVal.num 120)] (some [("area", PyVal.num 100)]) =
      .ok ⟨.Urgent, 20, .poor, .joined [.image_quality 0 0, .area_increase_pct 20]⟩ := by
  refine ⟨fun curr => rfl, fun curr => rfl, ?_, ?_⟩
  · intro curr prev ca pa hp hca hpa
    simp [compute_delta_pct, hp, hca, hpa]
  · simp [decide_status, compute_delta_pct, getFloat, dget, decideStatusCore, coreReason,
      qualityTags, qualityOf, exudateStep, deltaStep, rednessStep, mkExplanation,
      EXUDATE_HIGH, EXUDATE_MED, DELTA_URGENT, DELTA_CONCERNING, REDNESS_URGENT,
      REDNESS_CONCERNING, max_def]
    norm_num

/-- Witness for C5: the formula branch at areas 7 → 5. -/
theorem c5_witness :
    compute_delta_pct [("area", PyVal.num 5)] (some [("area", PyVal.num 7)]) =
      .ok (((5 : ℚ) - max 1 7) / max 1 7 * 100) :=
  c5_delta_formula.2.2.1 [("area", PyVal.num 5)] [("area", PyVal.num 7)] 5 7
    (by simp) (by simp [getFloat, dget]) (by simp [getFloat, dget])

lemma getFloat_congr {c₁ c₂ : MetricDict} (k : String) (h : dget c₁ k = dget c₂ k)
    (dflt : ℚ) : getFloat c₁ k dflt = getFloat c₂ k dflt := by
  unfold getFloat
  rw [h]

lemma compute_delta_pct_congr {c₁ c₂ : MetricDict} (prev : Option MetricDict)
    (h : dget c₁ "area" = dget c₂ "area") :
    compute_delta_pct c₁ prev = compute_delta_pct c₂ prev := by
  unfold compute_delta_pct
  cases prev with
  | none => rfl
  | some p =>
    by_cases hp : p = []
    · simp [hp]
    · simp only [if_neg hp]
      rw [getFloat_congr "area" h 0]

/-- Unfolding of a successful `decide_status` call into its five field
extractions and the pure rule chain. -/
lemma decide_status_ok_inv {curr : MetricDict} {prev : Option MetricDict} {dec : Decision}
    (h : decide_status curr prev = .ok dec) :
    ∃ δ r e bv br, compute_delta_pct curr prev = .ok δ ∧
      getFloat curr "redness" 0 = .ok r ∧ getFloat curr "exudate_ratio" 0 = .ok e ∧
      getFloat curr "blur_var" 0 = .ok bv ∧ getFloat curr "brightness" 0 = .ok br ∧
      dec = decideStatusCore δ r e bv br := by
  unfold decide_status at h
  rcases hδ : compute_delta_pct curr prev with e' | δ <;> rw [hδ] at h
  · simp at h
  rcases hr : getFloat curr "redness" 0 with e' | r <;> rw [hr] at h
  · simp at h
  rcases he : getFloat curr "exudate_ratio" 0 with e' | e <;> rw [he] at h
  · simp at h
  rcases hbv : getFloat curr "blur_var" 0 with e' | bv <;> rw [hbv] at h
  · simp at h
  rcases hbr : getFloat curr "brightness" 0 with e' | br <;> rw [hbr] at h
  · simp at h
  simp only [Except.ok.injEq] at h
  exact ⟨δ, r, e, bv, br, rfl, rfl, rfl, rfl, rfl, h.symm⟩

/-- C6: the quality flag is `poor` exactly when `blur_var < 60` or
`brightness < 30` (else `ok`), and the returned status does not depend on
the `blur_var` and `brightness` fields: two inputs that differ only in
those two fields classify to the same status. -/
theorem c6_quality_iff_and_status_independent :
    (∀ (curr : MetricDict) (prev : Option MetricDict) (dec : Decision) (bv br : ℚ),
      decide_status curr prev = .ok dec →
      getFloat curr "blur_var" 0 = .ok bv → getFloat curr "brightness" 0 = .ok br →
      (dec.quality = .poor ↔ (bv < 60 ∨ br < 30))) ∧
    (∀ (c₁ c₂ : MetricDict) (prev : Option MetricDict),
      dget c₁ "area" = dget c₂ "area" → dget c₁ "redness" = dget c₂ "redness" →
      dget c₁ "exudate_ratio" = dget c₂ "exudate_ratio" →
      numOrMissing c₁ "blur_var" → numOrMissing c₁ "brightness" →
      numOrMissing c₂ "blur_var" → numOrMissing c₂ "brightness" →
      Except.map Decision.status (decide_status c₁ prev) =
        Except.map Decision.status (decide_status c₂ prev)) := by
  constructor
  · intro curr prev dec bv br hdec hbv hbr
    obtain ⟨δ, r, e, bv', br', -, -, -, hbv', hbr', hdec'⟩ := decide_status_ok_inv hdec
    rw [hbv'] at hbv
    rw [hbr'] at hbr
    cases hbv
    cases hbr
    subst hdec'
    by_cases hq : bv < 60 ∨ br < 30 <;> simp [decideStatusCore, qualityOf, hq]
  · intro c₁ c₂ prev ha hr he hb1 hbr1 hb2 hbr2
    have hδeq := compute_delta_pct_congr prev ha
    have hreq := getFloat_congr "redness" hr 0
    have heeq := getFloat_congr "exudate_ratio" he 0
    obtain ⟨bv₁, hbv₁⟩ := numOrMissing_getFloat hb1 0
    obtain ⟨br₁, hbr₁⟩ := numOrMissing_getFloat hbr1 0
    obtain ⟨bv₂, hbv₂⟩ := numOrMissing_getFloat hb2 0
    obtain ⟨br₂, hbr₂⟩ := numOrMissing_getFloat hbr2 0
    rcases hδ : compute_delta_pct c₁ prev with e' | δ <;>
      have hδ₂ : compute_delta_pct c₂ prev = _ := hδeq ▸ hδ
    · simp [decide_status, hδ, hδ₂]
    rcases hrv : getFloat c₁ "redness" 0 with e' | r <;>
      have hrv₂ : getFloat c₂ "redness" 0 = _ := hreq ▸ hrv
    · simp [decide_status, hδ, hδ₂, hrv, hrv₂]
    rcases hev : getFloat c₁ "exudate_ratio" 0 with e' | ex <;>
      have hev₂ : getFloat c₂ "exudate_ratio" 0 = _ := heeq ▸ hev
    · simp [decide_status, hδ, hδ₂, hrv, hrv₂, hev, hev₂]
    simp [decide_status, hδ, hδ₂, hrv, hrv₂, hev, hev₂, hbv₁, hbr₁, hbv₂, hbr₂,
      decideStatusCore, Except.map]

/-- Witness for C6: two concrete dicts differing only in `blur_var` and
`brightness` get the same status. -/
theorem c6_witness :
    Except.map Decision.status
        (decide_status [("redness", PyVal.num 160), ("blur_var", PyVal.num 10)] none) =
      Except.map Decision.status
        (decide_status [("redness", PyVal.num 160), ("blur_var", PyVal.num 500)] none) :=
  c6_quality_iff_and_status_independent.2
    [("redness", PyVal.num 160), ("blur_var", PyVal.num 10)]
    [("redness", PyVal.num 160), ("blur_var", PyVal.num 500)] none
    (by simp [dget]) (by simp [dget]) (by simp [dget])
    (by intro v hv; simp [dget] at hv; exact ⟨10, hv.symm⟩)
    (numOrMissing_of_absent (by simp [dget]))
    (by intro v hv; simp [dget] at hv; exact ⟨500, hv.symm⟩)
    (numOrMissing_of_absent (by simp [dget]))

lemma deltaStep_band {δ : ℚ} (st : Status) (h1 : -5 ≤ δ) (h2 : δ ≤ 5) :
    (deltaStep δ st).2 = [.area_change_pct δ] := by
  unfold deltaStep DELTA_URGENT DELTA_CONCERNING
  rw [if_neg (by linarith), if_neg (by rintro ⟨a, -, -⟩; linarith), if_pos ⟨h1, h2⟩]

lemma exudateStep_urgent_tags {e : ℚ} (h : (exudateStep e .Monitor).1 = .Urgent) :
    (exudateStep e .Monitor).2 ≠ [] := by
  unfold exudateStep at h ⊢
  split_ifs at h ⊢
  all_goals simp_all

/-- The `reason` list of a classification is never empty: the delta
block's `-5 ≤ delta ≤ 5` branch always appends an informational tag, and
in the only delta case that appends nothing (`5 < delta ≤ 15` with status
already `Urgent`) the exudate block has already appended its tag. -/
lemma coreReason_ne_nil (δ r e bv br : ℚ) : coreReason δ r e bv br ≠ [] := by
  have key : (exudateStep e .Monitor).2 ≠ [] ∨
      (deltaStep δ (exudateStep e .Monitor).1).2 ≠ [] := by
    rcases lt_or_le (15 : ℚ) δ with h15 | h15
    · right
      unfold deltaStep DELTA_URGENT
      rw [if_pos h15]
      simp
    · rcases lt_or_le (5 : ℚ) δ with h5 | h5
      · by_cases hu : (exudateStep e .Monitor).1 = .Urgent
        · exact Or.inl (exudateStep_urgent_tags hu)
        · right
          unfold deltaStep DELTA_URGENT DELTA_CONCERNING
          rw [if_neg (by linarith), if_pos ⟨h5, h15, hu⟩]
          simp
      · rcases le_or_lt (-5 : ℚ) δ with hm5 | hm5
        · right
          rw [deltaStep_band _ hm5 h5]
          simp
        · right
          unfold deltaStep DELTA_URGENT DELTA_CONCERNING
          rw [if_neg (by linarith), if_neg (by rintro ⟨a, -, -⟩; linarith),
            if_neg (by rintro ⟨a, -⟩; linarith), if_pos hm5]
          simp
  unfold coreReason
  intro hcontra
  rcases key with hk | hk <;> (simp [List.append_eq_nil] at hcontra; tauto)

/-- C10: the `-5 ≤ delta_pct ≤ 5` branch of the delta block always
appends the informational area-change tag, and every successful
classification has a non-empty reason list, so the explanation is never
the `"heuristic_default"` fallback. -/
theorem c10_explanation_never_default :
    (∀ (st : Status) (δ : ℚ), -5 ≤ δ → δ ≤ 5 →
      (deltaStep δ st).2 = [.area_change_pct δ]) ∧
    (∀ (curr : MetricDict) (prev : Option MetricDict) (dec : Decision),
      decide_status curr prev = .ok dec → dec.explanation ≠ .heuristic_default) := by
  constructor
  · intro st δ h1 h2
    exact deltaStep_band st h1 h2
  · intro curr prev dec hdec
    obtain ⟨δ, r, e, bv, br, -, -, -, -, -, hdec'⟩ := decide_status_ok_inv hdec
    subst hdec'
    simp [decideStatusCore, mkExplanation, coreReason_ne_nil δ r e bv br]

/-- Witness for C10: the neutral-delta tag at `delta = 0`, and the empty
dict (all fields read as 0) classifying with a non-default explanation. -/
theorem c10_witness :
    (deltaStep 0 Status.Monitor).2 = [.area_change_pct 0] ∧
    Decision.explanation (decideStatusCore 0 0 0 0 0) ≠ .heuristic_default :=
  ⟨c10_explanation_never_default.1 Status.Monitor 0 (by norm_num) (by norm_num),
   c10_explanation_never_default.2 [] none (decideStatusCore 0 0 0 0 0) rfl⟩

/-- The current metrics of the spec's redness test (`redness = 160`,
`exudate_ratio = 0`, no previous observation), with the capture-quality
fields as parameters. -/
def c3curr (bv br : ℚ) : MetricDict :=
  [("redness", .num 160), ("exudate_ratio", .num 0),
   ("blur_var", .num bv), ("brightness", .num br)]

/-- C3 counterexample: at `redness = 160`, `exudate_ratio = 0`,
`delta_pct = 0` (and good capture quality, the most favourable case) the
explanation also carries the informational `area_change_pct` tag produced
by the `-5 ≤ delta ≤ 5` branch, so it does not consist of the redness tag
alone. -/
theorem c3_counterexample :
    decide_status (c3curr 100 100) none =
      .ok ⟨.Urgent, 0, .ok, .joined [.area_change_pct 0, .redness 160]⟩ ∧
    Tag.isRedness (.area_change_pct 0) = false := by
  refine ⟨?_, rfl⟩
  simp [decide_status, compute_delta_pct, c3curr, getFloat, dget, decideStatusCore,
    coreReason, qualityTags, qualityOf, exudateStep, deltaStep, rednessStep,
    mkExplanation, EXUDATE_HIGH, EXUDATE_MED, DELTA_URGENT, DELTA_CONCERNING,
    REDNESS_URGENT, REDNESS_CONCERNING]
  norm_num

/-- C3 (amended): for `redness = 160` and all other metrics neutral the
status is `Urgent` and the explanation contains the redness tag, but it
additionally contains the informational area-change tag of the
`-5 ≤ delta ≤ 5` branch (and would also contain a quality tag were the
capture quality poor): with `blur_var ≥ 60` and `brightness ≥ 30` the
explanation is exactly `[area_change_pct 0, redness 160]`. -/
theorem c3_redness_urgent :
    ∀ (bv br : ℚ), 60 ≤ bv → 30 ≤ br →
      decide_status (c3curr bv br) none =
        .ok ⟨.Urgent, 0, .ok, .joined [.area_change_pct 0, .redness 160]⟩ := by
  intro bv br hbv hbr
  have hq : ¬(bv < 60 ∨ br < 30) := by
    push_neg
    exact ⟨hbv, hbr⟩
  simp [decide_status, compute_delta_pct, c3curr, getFloat, dget, decideStatusCore,
    coreReason, qualityTags, qualityOf, exudateStep, deltaStep, rednessStep,
    mkExplanation, EXUDATE_HIGH, EXUDATE_MED, DELTA_URGENT, DELTA_CONCERNING,
    REDNESS_URGENT, REDNESS_CONCERNING, hq]
  norm_num

/-- Witness for C3 (amended): good capture quality, `blur_var = 200`,
`brightness = 128`. -/
theorem c3_witness :
    decide_status (c3curr 200 128) none =
      .ok ⟨.Urgent, 0, .ok, .joined [.area_change_pct 0, .redness 160]⟩ :=
  c3_redness_urgent 200 128 (by norm_num) (by norm_num)

/-! ## Perception (`perception.py`) -/

/-- An RGB raster (`np.array(pil_img.convert("RGB"))`): `h` rows, `w`
columns, three channel planes as total functions whose values outside the
`h × w` grid are never read by the pipeline. -/
structure Img where
  h : ℕ
  w : ℕ
  r : ℕ → ℕ → ℕ
  g : ℕ → ℕ → ℕ
  b : ℕ → ℕ → ℕ

/-- `cv2.cvtColor(img, COLOR_RGB2GRAY)` at one pixel: OpenCV's fixed-point
formula `(R*4899 + G*9617 + B*1868 + 2^13) >> 14`. -/
def grayAt (img : Img) (i j : ℕ) : ℕ :=
  (4899 * img.r i j + 9617 * img.g i j + 1868 * img.b i j + 8192) / 16384

/-- Sum of a per-pixel quantity over the raster. -/
def pixSum (img : Img) (f : ℕ → ℕ → ℚ) : ℚ :=
  ∑ i ∈ Finset.range img.h, ∑ j ∈ Finset.range img.w, f i j

/-- `float(np.mean(gray))`. -/
def brightnessOf (img : Img) : ℚ :=
  pixSum img (fun i j => (grayAt img i j : ℚ)) / ((img.h : ℚ) * img.w)

/-- OpenCV `borderInterpolate(i, n, BORDER_REFLECT_101)` for the
one-pixel border of the 3×3 Laplacian: reflection that does not repeat
the edge pixel; a single-pixel axis always resolves to 0. -/
def refl101 (n : ℕ) (i : ℤ) : ℤ :=
  if n ≤ 1 then 0
  else if i < 0 then -i
  else if (n : ℤ) ≤ i then 2 * ((n : ℤ) - 1) - i
  else i

/-- Grayscale value at possibly out-of-range integer coordinates,
resolved with reflect-101 borders. -/
def grayR (img : Img) (i j : ℤ) : ℤ :=
  grayAt img (refl101 img.h i).toNat (refl101 img.w j).toNat

/-- `cv2.Laplacian(gray, CV_64F)` with the default aperture: the 3×3
kernel `[[0,1,0],[1,-4,1],[0,1,0]]` with reflect-101 borders. -/
def lapAt (img : Img) (i j : ℕ) : ℤ :=
  grayR img ((i : ℤ) - 1) j + grayR img ((i : ℤ) + 1) j +
    grayR img i ((j : ℤ) - 1) + grayR img i ((j : ℤ) + 1) - 4 * grayAt img i j

/-- `float(cv2.Laplacian(gray, CV_64F).var())`: population variance of
the Laplacian response. -/
def blurVarOf (img : Img) : ℚ :=
  pixSum img (fun i j =>
      ((lapAt img i j : ℚ) - pixSum img (fun p q => (lapAt img p q : ℚ)) / ((img.h : ℚ) * img.w)) ^ 2) /
    ((img.h : ℚ) * img.w)

/-- A binary raster (`red_mask`): nonzero entries are `true`. -/
structure Mask where
  h : ℕ
  w : ℕ
  m : ℕ → ℕ → Bool

/-- Read a mask at integer coordinates; out-of-range reads give
`outside` (OpenCV pads erosion with the maximal value and dilation with
the minimal one, so the border never constrains the min/max). -/
def mGet (mk : Mask) (p q : ℤ) (outside : Bool) : Bool :=
  if 0 ≤ p ∧ p < (mk.h : ℤ) ∧ 0 ≤ q ∧ q < (mk.w : ℤ) then mk.m p.toNat q.toNat else outside

/-- `cv2.getStructuringElement(cv2.MORPH_ELLIPSE, (7, 7))`, written as
the offsets of its nonzero cells from the centre anchor. -/
def ellipse7 : List (ℤ × ℤ) :=
  [(-3, 0),
   (-2, -2), (-2, -1), (-2, 0), (-2, 1), (-2, 2),
   (-1, -3), (-1, -2), (-1, -1), (-1, 0), (-1, 1), (-1, 2), (-1, 3),
   (0, -3), (0, -2), (0, -1), (0, 0), (0, 1), (0, 2), (0, 3),
   (1, -3), (1, -2), (1, -1), (1, 0), (1, 1), (1, 2), (1, 3),
   (2, -2), (2, -1), (2, 0), (2, 1), (2, 2),
   (3, 0)]

/-- `cv2.erode` with the elliptical element. -/
def erode (mk : Mask) : Mask :=
  ⟨mk.h, mk.w, fun i j => ellipse7.all fun o => mGet mk ((i : ℤ) + o.1) ((j : ℤ) + o.2) true⟩

/-- `cv2.dilate` with the elliptical element (symmetric, so the kernel
reflection performed by dilation is the identity). -/
def dilate (mk : Mask) : Mask :=
  ⟨mk.h, mk.w, fun i j => ellipse7.any fun o => mGet mk ((i : ℤ) + o.1) ((j : ℤ) + o.2) false⟩

/-- `cv2.morphologyEx(red_mask, cv2.MORPH_OPEN, kernel)`. -/
def morphOpen (mk : Mask) : Mask := dilate (erode mk)

/-- `cv2.morphologyEx(red_mask, cv2.MORPH_CLOSE, kernel)`. -/
def morphClose (mk : Mask) : Mask := erode (dilate mk)

/-- The red-ish condition `(R > (G*1.1).astype(int32)) & (R >
(B*1.1).astype(int32)) & (R > 70)`; `astype` truncates towards zero, and
for 8-bit channel values the float product `G*1.1` truncates to
`⌊11G/10⌋`. -/
def redCond (img : Img) (i j : ℕ) : Bool :=
  decide (11 * img.g i j / 10 < img.r i j) && decide (11 * img.b i j / 10 < img.r i j) &&
    decide (70 < img.r i j)

/-- The brightness condition `(R + G + B) / 3 > 30` (true division). -/
def brightCond (img : Img) (i j : ℕ) : Bool :=
  decide ((30 : ℚ) < ((img.r i j : ℚ) + img.g i j + img.b i j) / 3)

/-- `red_mask` before the morphology cleaning. -/
def rawMask (img : Img) : Mask :=
  ⟨img.h, img.w, fun i j => redCond img i j && brightCond img i j⟩

/-- `red_mask` after one opening followed by one closing. -/
def cleanMask (img : Img) : Mask := morphClose (morphOpen (rawMask img))

/-- `int(np.sum(red_mask > 0))`. -/
def maskPopcount (mk : Mask) : ℕ :=
  ∑ i ∈ Finset.range mk.h, ∑ j ∈ Finset.range mk.w, if mk.m i j then 1 else 0

/-- The dict returned by `analyze_image`. -/
structure MetricSet where
  area : ℕ
  area_pct : ℚ
  redness : ℚ
  exudate_ratio : ℚ
  brightness : ℚ
  blur_var : ℚ
  mask : Mask

/-- The metric computations of `analyze_image`, applied to the (possibly
downscaled) raster. -/
def computeMetrics (img : Img) : MetricSet :=
  let msk := cleanMask img
  let total : ℚ := (img.h : ℚ) * img.w
  let area := maskPopcount msk
  { area := area
    area_pct := (area : ℚ) / total * 100
    redness :=
      if 0 < area then
        pixSum img (fun i j => if msk.m i j then (img.r i j : ℚ) else 0) / area
      else pixSum img (fun i j => (img.r i j : ℚ)) / total
    exudate_ratio := pixSum img (fun i j => if 230 < grayAt img i j then 1 else 0) / total
    brightness := brightnessOf img
    blur_var := blurVarOf img
    mask := msk }

/-- Length of the overlap of the unit source cell `[y, y+1)` with the
interval `[a, b)`. -/
def cellOverlap (a b : ℚ) (y : ℕ) : ℚ := max 0 (min ((y : ℚ) + 1) b - max (y : ℚ) a)

/-- `cv2.resize(..., interpolation=cv2.INTER_AREA)` for one channel:
each destination pixel is the area-weighted average of the source pixels
covered by its back-projected footprint, rounded to the nearest integer. -/
def areaAvg (H W nh nw : ℕ) (f : ℕ → ℕ → ℕ) (i j : ℕ) : ℕ :=
  (round ((∑ y ∈ Finset.range H, ∑ x ∈ Finset.range W,
      cellOverlap ((i : ℚ) * ((H : ℚ) / nh)) (((i : ℚ) + 1) * ((H : ℚ) / nh)) y *
        cellOverlap ((j : ℚ) * ((W : ℚ) / nw)) (((j : ℚ) + 1) * ((W : ℚ) / nw)) x *
        f y x) /
    (((H : ℚ) / nh) * ((W : ℚ) / nw)))).toNat

/-- The downscaled raster. -/
def interAreaResize (img : Img) (nh nw : ℕ) : Img :=
  ⟨nh, nw, areaAvg img.h img.w nh nw img.r, areaAvg img.h img.w nh nw img.g,
    areaAvg img.h img.w nh nw img.b⟩

/-- `analyze_image(pil_img, target_size)`: when the larger dimension
exceeds `target_size` the raster is downscaled to `(int(w*scale),
int(h*scale))` with `scale = target_size / max_dim`; `cv2.resize` raises
when either requested dimension is zero (empty `dsize`), which the
`Except.error` branch models. -/
def analyze_image (img : Img) (target_size : ℕ) : Except Unit MetricSet :=
  if target_size < max img.h img.w then
    if img.h * target_size / max img.h img.w = 0 ∨
        img.w * target_size / max img.h img.w = 0 then .error ()
    else
      .ok (computeMetrics (interAreaResize img (img.h * target_size / max img.h img.w)
        (img.w * target_size / max img.h img.w)))
  else .ok (computeMetrics img)

/-- C7: for every successfully analyzed image, the population count of
the returned mask equals `area`, and `area_pct` is `area` over the
processed-image pixel count, times 100 (exact in rational arithmetic). -/
theorem c7_mask_area_invariant :
    ∀ (img : Img) (ts : ℕ) (m : MetricSet), analyze_image img ts = .ok m →
      maskPopcount m.mask = m.area ∧
      m.area_pct = (m.area : ℚ) / ((m.mask.h : ℚ) * m.mask.w) * 100 := by
  intro img ts m hok
  unfold analyze_image at hok
  split_ifs at hok
  all_goals injection hok with hok
  all_goals subst hok
  all_goals exact ⟨rfl, rfl⟩

/-- A 1×1 all-black image. -/
def img1 : Img := ⟨1, 1, fun _ _ => 0, fun _ _ => 0, fun _ _ => 0⟩

/-- Extract the MetricSet of a successful analysis. -/
def getM : Except Unit MetricSet → MetricSet
  | .ok m => m
  | .error _ => ⟨0, 0, 0, 0, 0, 0, ⟨0, 0, fun _ _ => false⟩⟩

/-- Witness for C7: the invariant at a concrete 1×1 image. -/
theorem c7_witness :
    maskPopcount (getM (analyze_image img1 512)).mask = (getM (analyze_image img1 512)).area ∧
      (getM (analyze_image img1 512)).area_pct =
        ((getM (analyze_image img1 512)).area : ℚ) /
          (((getM (analyze_image img1 512)).mask.h : ℚ) *
            (getM (analyze_image img1 512)).mask.w) * 100 :=
  c7_mask_area_invariant img1 512 (getM (analyze_image img1 512)) rfl

/-- C9: extraction is deterministic — two images with the same dimensions
and identical pixel data (and the same `target_size`) yield identical
results; there is no hidden state in the pipeline. -/
theorem c9_deterministic :
    ∀ (img₁ img₂ : Img) (ts : ℕ), img₁.h = img₂.h → img₁.w = img₂.w →
      (∀ i j, img₁.r i j = img₂.r i j) → (∀ i j, img₁.g i j = img₂.g i j) →
      (∀ i j, img₁.b i j = img₂.b i j) →
      analyze_image img₁ ts = analyze_image img₂ ts := by
  intro img₁ img₂ ts hh hw hr hg hb
  obtain ⟨h₁, w₁, r₁, g₁, b₁⟩ := img₁
  obtain ⟨h₂, w₂, r₂, g₂, b₂⟩ := img₂
  simp only at hh hw hr hg hb
  subst hh
  subst hw
  have hr' : r₁ = r₂ := funext fun i => funext fun j => hr i j
  have hg' : g₁ = g₂ := funext fun i => funext fun j => hg i j
  have hb' : b₁ = b₂ := funext fun i => funext fun j => hb i j
  subst hr'
  subst hg'
  subst hb'
  rfl

/-- A 2×2 image with every channel equal to 5. -/
def imgA : Img := ⟨2, 2, fun _ _ => 5, fun _ _ => 5, fun _ _ => 5⟩

/-- The same pixel data as `imgA`, written differently. -/
def imgB : Img := ⟨2, 2, fun _ _ => 2 + 3, fun _ _ => 5, fun _ _ => 4 + 1⟩

/-- Witness for C9: two syntactically different images with identical
pixel data analyze identically. -/
theorem c9_witness : analyze_image imgA 512 = analyze_image imgB 512 :=
  c9_deterministic imgA imgB 512 rfl rfl (fun _ _ => rfl) (fun _ _ => rfl) (fun _ _ => rfl)

/-- A well-formed 10000×1 all-black image: its smaller dimension scales
to `int(1 * 512 / 10000) = 0` under the 512-px cap. -/
def c4img : Img := ⟨10000, 1, fun _ _ => 0, fun _ _ => 0, fun _ _ => 0⟩

/-- C4 counterexample: `analyze_image` raises (the `cv2.resize` call is
given an empty target size) on a well-formed non-empty 10000×1 image. -/
theorem c4_counterexample : analyze_image c4img 512 = .error () := rfl

/-- C4 (amended): extraction returns a complete MetricSet for every
non-empty image *whose downscaled dimensions remain at least one pixel*
(in particular whenever no downscale happens); an image whose smaller
dimension scales to zero pixels makes the resize step raise instead. -/
theorem c4_total_when_dims_survive :
    ∀ (img : Img), 1 ≤ img.h → 1 ≤ img.w →
      (max img.h img.w ≤ 512 ∨
        (1 ≤ img.h * 512 / max img.h img.w ∧ 1 ≤ img.w * 512 / max img.h img.w)) →
      ∃ m, analyze_image img 512 = .ok m := by
  intro img hh hw hdims
  unfold analyze_image
  rcases hdims with hsmall | ⟨h1, h2⟩
  · rw [if_neg (Nat.not_lt.mpr hsmall)]
    exact ⟨_, rfl⟩
  · by_cases hbig : 512 < max img.h img.w
    · rw [if_pos hbig,
        if_neg (not_or.mpr ⟨Nat.one_le_iff_ne_zero.mp h1, Nat.one_le_iff_ne_zero.mp h2⟩)]
      exact ⟨_, rfl⟩
    · rw [if_neg hbig]
      exact ⟨_, rfl⟩

/-- Witness for C4 (amended): the 1×1 image analyzes successfully. -/
theorem c4_witness : ∃ m, analyze_image img1 512 = .ok m :=
  c4_total_when_dims_survive img1 le_rfl le_rfl (Or.inl (by decide))

/-- No in-range entry of the mask is set. -/
def maskAllFalse (mk : Mask) : Prop := ∀ i j, i < mk.h → j < mk.w → mk.m i j = false

lemma mGet_false {mk : Mask} (h : maskAllFalse mk) (p q : ℤ) : mGet mk p q false = false := by
  unfold mGet
  split_ifs with hb
  · exact h _ _ (by omega) (by omega)
  · rfl

lemma dilate_allFalse {mk : Mask} (h : maskAllFalse mk) : maskAllFalse (dilate mk) := by
  intro i j _ _
  simp only [dilate, List.any_eq_false]
  intro o _
  simp [mGet_false h]

lemma erode_allFalse {mk : Mask} (h : maskAllFalse mk) : maskAllFalse (erode mk) := by
  intro i j hi hj
  have hi' : i < mk.h := hi
  have hj' : j < mk.w := hj
  have hcent : mGet mk ((i : ℤ) + 0) ((j : ℤ) + 0) true = false := by
    have hin : (0 : ℤ) ≤ (i : ℤ) + 0 ∧ (i : ℤ) + 0 < (mk.h : ℤ) ∧
        (0 : ℤ) ≤ (j : ℤ) + 0 ∧ (j : ℤ) + 0 < (mk.w : ℤ) := by omega
    rw [mGet, if_pos hin]
    exact h _ _ (by omega) (by omega)
  simp only [erode]
  rw [Bool.eq_false_iff]
  intro hall
  rw [List.all_eq_true] at hall
  have h00 := hall ((0 : ℤ), (0 : ℤ)) (by decide)
  rw [hcent] at h00
  cases h00

lemma maskPopcount_allFalse {mk : Mask} (h : maskAllFalse mk) : maskPopcount mk = 0 := by
  unfold maskPopcount
  refine Finset.sum_eq_zero fun i hi => Finset.sum_eq_zero fun j hj => ?_
  rw [h i j (Finset.mem_range.mp hi) (Finset.mem_range.mp hj)]
  simp

/-- On a uniform mid-gray raster no pixel is red-ish: `128` is not above
`int(128 * 1.1) = 140`. -/
lemma rawMask_allFalse_of_gray128 {img : Img}
    (h128 : ∀ i j, i < img.h → j < img.w →
      img.r i j = 128 ∧ img.g i j = 128 ∧ img.b i j = 128) :
    maskAllFalse (rawMask img) := by
  intro i j hi hj
  obtain ⟨hr, hg, hb⟩ := h128 i j hi hj
  simp [rawMask, redCond, hr, hg]

lemma cleanMask_allFalse {img : Img} (h : maskAllFalse (rawMask img)) :
    maskAllFalse (cleanMask img) :=
  erode_allFalse (dilate_allFalse (dilate_allFalse (erode_allFalse h)))

/-- The metric computations on any raster that is mid-gray on its whole
in-range grid: empty mask, whole-image mean red value 128. -/
lemma computeMetrics_uniform128 {img : Img} (hh : 1 ≤ img.h) (hw : 1 ≤ img.w)
    (h128 : ∀ i j, i < img.h → j < img.w →
      img.r i j = 128 ∧ img.g i j = 128 ∧ img.b i j = 128) :
    (computeMetrics img).area = 0 ∧ (computeMetrics img).redness = 128 := by
  have harea : maskPopcount (cleanMask img) = 0 :=
    maskPopcount_allFalse (cleanMask_allFalse (rawMask_allFalse_of_gray128 h128))
  refine ⟨harea, ?_⟩
  have htot : ((img.h : ℚ) * img.w) ≠ 0 := by
    have : (0 : ℚ) < (img.h : ℚ) * img.w := by
      have := Nat.mul_pos hh hw
      exact_mod_cast this
    linarith
  have hsum : pixSum img (fun i j => (img.r i j : ℚ)) = (img.h : ℚ) * img.w * 128 := by
    unfold pixSum
    have hrow : ∀ i ∈ Finset.range img.h,
        ∑ j ∈ Finset.range img.w, ((img.r i j : ℚ)) = (img.w : ℚ) * 128 := by
      intro i hi
      have hcell : ∀ j ∈ Finset.range img.w, ((img.r i j : ℚ)) = (128 : ℚ) := fun j hj => by
        rw [(h128 i j (Finset.mem_range.mp hi) (Finset.mem_range.mp hj)).1]
        norm_num
      rw [Finset.sum_congr rfl hcell, Finset.sum_const, Finset.card_range, nsmul_eq_mul]
    rw [Finset.sum_congr rfl hrow, Finset.sum_const, Finset.card_range, nsmul_eq_mul]
    ring
  simp only [computeMetrics, harea]
  rw [if_neg (by norm_num)]
  rw [hsum]
  field_simp

set_option maxHeartbeats 1000000 in
lemma cellOverlap_eq {a b : ℚ} (hab : a ≤ b) (y : ℕ) :
    cellOverlap a b y = min b (max a ((y : ℚ) + 1)) - min b (max a (y : ℚ)) := by
  unfold cellOverlap
  simp only [min_def, max_def]
  split_ifs <;> linarith

/-- The unit source cells `[y, y+1)`, `y < N`, partition `[0, N)`: the
overlaps with a subinterval `[a, b)` sum to its length. -/
lemma sum_cellOverlap {N : ℕ} {a b : ℚ} (h0 : 0 ≤ a) (hab : a ≤ b) (hN : b ≤ (N : ℚ)) :
    ∑ y ∈ Finset.range N, cellOverlap a b y = b - a := by
  have hcong : ∀ y ∈ Finset.range N, cellOverlap a b y =
      (fun t : ℕ => min b (max a (t : ℚ))) (y + 1) - (fun t : ℕ => min b (max a (t : ℚ))) y := by
    intro y _
    have h := cellOverlap_eq hab y
    push_cast
    exact h
  rw [Finset.sum_congr rfl hcong, Finset.sum_range_sub (fun t : ℕ => min b (max a (t : ℚ)))]
  have h1 : max a (N : ℚ) = (N : ℚ) := max_eq_right (le_trans hab hN)
  have h2 : min b (N : ℚ) = b := min_eq_left hN
  have h3 : max a ((0 : ℕ) : ℚ) = a := by
    rw [Nat.cast_zero]
    exact max_eq_left h0
  have h4 : min b a = a := min_eq_right hab
  rw [h1, h2, h3, h4]

/-- Area-average resampling of a constant channel gives back the
constant at every in-range destination pixel. -/
lemma areaAvg_const {H W nh nw : ℕ} (hH : 1 ≤ H) (hW : 1 ≤ W) (hnh : 1 ≤ nh) (hnw : 1 ≤ nw)
    (c i j : ℕ) (hi : i < nh) (hj : j < nw) :
    areaAvg H W nh nw (fun _ _ => c) i j = c := by
  have hH0 : (0 : ℚ) < H := by exact_mod_cast hH
  have hW0 : (0 : ℚ) < W := by exact_mod_cast hW
  have hnh0 : (0 : ℚ) < nh := by exact_mod_cast hnh
  have hnw0 : (0 : ℚ) < nw := by exact_mod_cast hnw
  have hsy : (0 : ℚ) < (H : ℚ) / nh := div_pos hH0 hnh0
  have hsx : (0 : ℚ) < (W : ℚ) / nw := div_pos hW0 hnw0
  have hi1 : (i : ℚ) + 1 ≤ nh := by exact_mod_cast hi
  have hj1 : (j : ℚ) + 1 ≤ nw := by exact_mod_cast hj
  have hcapy : ((nh : ℚ)) * ((H : ℚ) / nh) = H := by field_simp
  have hcapx : ((nw : ℚ)) * ((W : ℚ) / nw) = W := by field_simp
  have hsumy : ∑ y ∈ Finset.range H,
      cellOverlap ((i : ℚ) * ((H : ℚ) / nh)) (((i : ℚ) + 1) * ((H : ℚ) / nh)) y =
        (H : ℚ) / nh := by
    rw [sum_cellOverlap (mul_nonneg (Nat.cast_nonneg i) hsy.le)
      (mul_le_mul_of_nonneg_right (by linarith) hsy.le)
      (by calc ((i : ℚ) + 1) * ((H : ℚ) / nh) ≤ (nh : ℚ) * ((H : ℚ) / nh) :=
            mul_le_mul_of_nonneg_right hi1 hsy.le
          _ = H := hcapy)]
    ring
  have hsumx : ∑ x ∈ Finset.range W,
      cellOverlap ((j : ℚ) * ((W : ℚ) / nw)) (((j : ℚ) + 1) * ((W : ℚ) / nw)) x =
        (W : ℚ) / nw := by
    rw [sum_cellOverlap (mul_nonneg (Nat.cast_nonneg j) hsx.le)
      (mul_le_mul_of_nonneg_right (by linarith) hsx.le)
      (by calc ((j : ℚ) + 1) * ((W : ℚ) / nw) ≤ (nw : ℚ) * ((W : ℚ) / nw) :=
            mul_le_mul_of_nonneg_right hj1 hsx.le
          _ = W := hcapx)]
    ring
  unfold areaAvg
  have hfactor : ((∑ y ∈ Finset.range H,
        cellOverlap ((i : ℚ) * ((H : ℚ) / nh)) (((i : ℚ) + 1) * ((H : ℚ) / nh)) y) *
      (∑ x ∈ Finset.range W,
        cellOverlap ((j : ℚ) * ((W : ℚ) / nw)) (((j : ℚ) + 1) * ((W : ℚ) / nw)) x)) * (c : ℚ) =
      ∑ y ∈ Finset.range H, ∑ x ∈ Finset.range W,
        cellOverlap ((i : ℚ) * ((H : ℚ) / nh)) (((i : ℚ) + 1) * ((H : ℚ) / nh)) y *
        cellOverlap ((j : ℚ) * ((W : ℚ) / nw)) (((j : ℚ) + 1) * ((W : ℚ) / nw)) x *
        ((fun _ _ : ℕ => c) y x : ℚ) := by
    rw [Finset.sum_mul_sum, Finset.sum_mul]
    exact Finset.sum_congr rfl fun y _ => by rw [Finset.sum_mul]
  rw [← hfactor, hsumy, hsumx]
  have hval : ((H : ℚ) / nh) * ((W : ℚ) / nw) * c / (((H : ℚ) / nh) * ((W : ℚ) / nw)) =
      (c : ℚ) := by
    field_simp
  rw [hval, round_natCast]
  exact Int.toNat_natCast c

/-- A uniform image: every channel value is `v` everywhere. -/
def uniformImg (h w v : ℕ) : Img := ⟨h, w, fun _ _ => v, fun _ _ => v, fun _ _ => v⟩

/-- C8: a uniform mid-gray image (all pixels `R = G = B = 128`) that
analyzes successfully yields `area = 0` (no pixel passes the red-ish
test, and morphology keeps an empty mask empty) and `redness` equal to
the whole-image mean red value, 128 — also through the downscale path,
since area-averaging preserves a constant raster. -/
theorem c8_uniform_midgray :
    ∀ (h w : ℕ) (m : MetricSet), 1 ≤ h → 1 ≤ w →
      analyze_image (uniformImg h w 128) 512 = .ok m →
      m.area = 0 ∧ m.redness = 128 := by
  intro h w m hh hw hok
  unfold analyze_image at hok
  split_ifs at hok with hbig hz
  all_goals injection hok with hok
  all_goals subst hok
  · have hnh : 1 ≤ h * 512 / max h w :=
      Nat.one_le_iff_ne_zero.mpr fun hc => hz (Or.inl hc)
    have hnw : 1 ≤ w * 512 / max h w :=
      Nat.one_le_iff_ne_zero.mpr fun hc => hz (Or.inr hc)
    refine computeMetrics_uniform128 hnh hnw ?_
    intro i j hi hj
    exact ⟨areaAvg_const hh hw hnh hnw 128 i j hi hj,
      areaAvg_const hh hw hnh hnw 128 i j hi hj,
      areaAvg_const hh hw hnh hnw 128 i j hi hj⟩
  · exact computeMetrics_uniform128 hh hw fun i j _ _ => ⟨rfl, rfl, rfl⟩

/-- Witness for C8: the 1×1 uniform mid-gray image. -/
theorem c8_witness :
    (getM (analyze_image (uniformImg 1 1 128) 512)).area = 0 ∧
      (getM (analyze_image (uniformImg 1 1 128) 512)).redness = 128 :=
  c8_uniform_midgray 1 1 (getM (analyze_image (uniformImg 1 1 128) 512)) le_rfl le_rfl rfl

end SWC
